import Mathlib

/-!
Verification of the stateful-ECG serverless DSP core (a shallow embedding of
`src/lib/ecgPipeline.js`, `src/workers/ecgWorker.js` and the Redis-streams
store in `src/scripts/testPipeline.js`).

JavaScript numbers are modelled as exact rationals (`ℚ`); `Math.round` as
floor of `q + 1/2`; `Math.round (Math.sqrt q)` through `Nat.sqrt` on the
scaled integer part.  The external DSP engine (`dspx`) is an external
collaborator: its outputs (the per-sample peak mask and the z-score series
produced by the cleaning pipeline) enter the model as parameters, exactly as
they enter the JavaScript functions as opaque data.
-/

/-- JavaScript `Math.round` on an exact rational: half-up rounding. -/
def jsRound (q : ℚ) : ℤ := ⌊q + 1/2⌋

/-- JavaScript `Math.round (Math.sqrt q)` for `q ≥ 0`, computed exactly:
`round (sqrt q) = (⌊sqrt (4q)⌋ + 1) / 2` over the integers. -/
def roundSqrtQ (q : ℚ) : ℕ := (Nat.sqrt (⌊4 * q⌋).toNat + 1) / 2

/-- Arithmetic mean of a list, as in the `reduce(...) / length` idiom of the
source (division by zero yields 0 in `ℚ`, matching no call site on `[]`). -/
def listMean (l : List ℚ) : ℚ := l.sum / (l.length : ℚ)

/-- Population variance, mirroring
`reduce((sum, rr) => sum + Math.pow(rr - meanRR, 2), 0) / length`. -/
def listVariance (l : List ℚ) : ℚ :=
  ((l.map fun x => (x - listMean l) ^ 2).sum) / (l.length : ℚ)

/-- JavaScript `array.slice(-n)`: the last `n` elements (the whole list when
it is shorter than `n`). -/
def jsSliceLast (n : ℕ) (l : List α) : List α := l.drop (l.length - n)

/-- R-R intervals in milliseconds from a list of peak sample indices at the
fixed MIT-BIH sample rate of 360 Hz:
`rrIntervals[i-1] = ((peaks[i] - peaks[i-1]) / sampleRate) * 1000`
(`ecgPipeline.js` lines 112-115). -/
def rrIntervalsOf (peaks : List ℤ) : List ℚ :=
  (peaks.zip peaks.tail).map fun p => (((p.2 - p.1 : ℤ) : ℚ) / 360) * 1000

/-- Outlier flag for one interval (`ecgPipeline.js` lines 134-141): out of
physiological range (`rr < 300 || rr > 2000`), or after the 6-sample warm-up
(`i > 5`) a statistical outlier (`|z| > 2.0`). -/
def rrFlagged (rr z : ℚ) (i : ℕ) : Bool :=
  decide (rr < 300) || decide (2000 < rr) || (decide (5 < i) && decide (2 < |z|))

/-- The cleaning loop of `calculateHeartRate` (`ecgPipeline.js` lines
130-149): the list of `nnIntervals` produced from position `i` on, given the
running-mean state `rm`.  A flagged value is replaced by the current running
estimate; the estimate advances (`rm * 0.8 + rr * 0.2`) only on non-flagged
values.  A missing z-score (engine output shorter than the interval list)
behaves like a non-outlier, as `NaN > 2` is false in JavaScript; `getD i 0`
models this. -/
def nnLoop (zs : List ℚ) : List ℚ → ℕ → ℚ → List ℚ
  | [], _, _ => []
  | rr :: rest, i, rm =>
    if rrFlagged rr (zs.getD i 0) i then
      rm :: nnLoop zs rest (i + 1) rm
    else
      rr :: nnLoop zs rest (i + 1) (rm * (4/5) + rr * (1/5))

/-- The `nnIntervals` list computed inside `calculateHeartRate`
(`ecgPipeline.js` lines 124-149), seeded with the first raw interval.  The
record returned by `calculateHeartRate` does not contain this list: the
source computes it and discards it. -/
def cleanedNnIntervals (zs rr : List ℚ) : List ℚ :=
  match rr with
  | [] => []
  | r0 :: _ => nnLoop zs rr 0 r0

/-- Running-mean state after folding the cleaning rule over a list of
intervals starting at position `i` with state `rm`. -/
def rmAfter (zs : List ℚ) : List ℚ → ℕ → ℚ → ℚ
  | [], _, rm => rm
  | rr :: rest, i, rm =>
    if rrFlagged rr (zs.getD i 0) i then
      rmAfter zs rest (i + 1) rm
    else
      rmAfter zs rest (i + 1) (rm * (4/5) + rr * (1/5))

/-- Modelled from the spec: the "exponentially-smoothed running estimate
(smoothing factor 0.2), seeded with the first interval of the batch, advanced
only from non-flagged values", evaluated just before position `i` is
processed.  This is the independent characterization against which the
source's cleaning loop is compared. -/
def specRunningEstimate (zs rr : List ℚ) (i : ℕ) : ℚ :=
  match rr with
  | [] => 0
  | r0 :: _ => rmAfter zs (rr.take i) 0 r0

/-- Result record of `calculateHeartRate`. -/
structure HRResult where
  bpm : ℤ
  rrIntervals : List ℚ
  hrv : ℕ
deriving DecidableEq, Repr

/-- Embedding of `calculateHeartRate` (`ecgPipeline.js` lines 106-174).
`zs` is the z-score series returned by the external cleaning pipeline for
the raw interval list.  With fewer than 2 peaks the function returns the
defined record `{bpm := 0, rrIntervals := [], hrv := 0}`; otherwise `bpm` is
the rounded `60000 / avgRR` over the raw intervals and `hrv` the rounded
standard deviation of the raw intervals (the cleaned `nnIntervals` are not
part of the result). -/
def calculateHeartRate (peaks : List ℤ) (zs : List ℚ) : HRResult :=
  if peaks.length < 2 then ⟨0, [], 0⟩
  else
    let rr := rrIntervalsOf peaks
    let _nn := cleanedNnIntervals zs rr
    let avgRR := listMean rr
    let bpm := jsRound (60000 / avgRR)
    let hrv := if 2 ≤ rr.length then roundSqrtQ (listVariance rr) else 0
    ⟨bpm, rr, hrv⟩

/-- Alert kinds emitted by `detectArrhythmia`. -/
inductive AlertType
  | bradycardia
  | tachycardia
  | irregular
  | pvc
deriving DecidableEq, Repr

/-- Alert severities emitted by `detectArrhythmia`. -/
inductive Severity
  | info
  | warning
  | critical
deriving DecidableEq, Repr

/-- One alert (the formatted message strings of the source carry no extra
information beyond the inputs and are not modelled). -/
structure Alert where
  type : AlertType
  severity : Severity
deriving DecidableEq, Repr

/-- Result of `detectArrhythmia`. -/
structure ArrhythmiaResult where
  normal : Bool
  alerts : List Alert
deriving DecidableEq, Repr

/-- JavaScript `Math.min` on two ordinary numbers. -/
def jsMin (a b : ℚ) : ℚ := if a ≤ b then a else b

/-- JavaScript `Math.max` on two ordinary numbers. -/
def jsMax (a b : ℚ) : ℚ := if a ≤ b then b else a

/-- Adjacent-pair condition of the PVC loop (`ecgPipeline.js` lines
220-224): `Math.max(a,b) / Math.min(a,b) > 1.5`.  When the minimum is 0,
JavaScript produces `Infinity` (ratio exceeded) for a positive maximum and
`NaN` (not exceeded) otherwise; the 0-minimum branch encodes exactly that. -/
def pvcPairExceeds (a b : ℚ) : Bool :=
  if jsMin a b = 0 then decide (0 < jsMax a b)
  else decide ((3 : ℚ)/2 < jsMax a b / jsMin a b)

/-- Whether some adjacent pair of the current-batch intervals trips the PVC
rule; the source loop pushes a single alert and breaks at the first match,
so the loop is equivalent to this existence check producing one alert. -/
def hasPvcPair (l : List ℚ) : Bool :=
  (l.zip l.tail).any fun p => pvcPairExceeds p.1 p.2

/-- Embedding of `detectArrhythmia` (`ecgPipeline.js` lines 183-238):
bradycardia and tachycardia checks are guarded by `bpm > 0`, the irregular
check fires on `hrv > 150`, and the PVC loop appends at most one info alert. -/
def detectArrhythmia (bpm : ℤ) (hrv : ℕ) (currentRrIntervals : List ℚ) : ArrhythmiaResult :=
  let bpmAlerts :=
    if 0 < bpm then
      (if bpm < 60 then [Alert.mk .bradycardia .warning] else []) ++
      (if 100 < bpm then
        [Alert.mk .tachycardia (if 150 < bpm then .critical else .warning)] else [])
    else []
  let hrvAlerts := if 150 < hrv then [Alert.mk .irregular .warning] else []
  let pvcAlerts := if hasPvcPair currentRrIntervals then [Alert.mk .pvc .info] else []
  let alerts := bpmAlerts ++ hrvAlerts ++ pvcAlerts
  ⟨alerts.isEmpty, alerts⟩

/-- Local peak indices extracted from the binary peak mask returned by the
external Pan-Tompkins pipeline (`ecgPipeline.js` lines 269-274): the
positions whose mask value is exactly `1.0`. -/
def localPeaksOf (mask : List ℚ) : List ℕ :=
  (mask.enum.filter fun p => decide (p.2 = 1)).map Prod.fst

/-- Index globalization (`ecgPipeline.js` lines 276-278):
`globalPeaks = localPeaks.map(idx => chunkIndex * chunk.length + idx)`. -/
def globalize (chunkIndex chunkLen : ℕ) (locals : List ℕ) : List ℤ :=
  locals.map fun idx => ((chunkIndex * chunkLen + idx : ℕ) : ℤ)

/-- Metadata record threaded between chunks; `none` models a JavaScript
`undefined`/`null` field. -/
structure EcgMetadata where
  chunkIndex : Option ℕ
  lastPeakSample : Option ℤ
  rrHistory : Option (List ℚ)
deriving DecidableEq, Repr

/-- The source reads `metadata.chunkIndex || 0`: a missing index (and a 0,
which the `||` operator also coerces) becomes 0. -/
def mdChunkIndex (md : EcgMetadata) : ℕ := md.chunkIndex.getD 0

/-- The source reads `metadata.lastPeakSample || null` (`ecgPipeline.js`
line 254): `||` coerces every falsy value to `null`, so a stored peak index
of `0` is turned into `null` as well. -/
def mdLastPeak (md : EcgMetadata) : Option ℤ :=
  match md.lastPeakSample with
  | some x => if x = 0 then none else some x
  | none => none

/-- The source reads `metadata.rrHistory || []`. -/
def mdRrHistory (md : EcgMetadata) : List ℚ := md.rrHistory.getD []

/-- Globalized event list combined with the carried-over previous peak
(`ecgPipeline.js` lines 280-282):
`allPeaks = lastPeakSample !== null ? [lastPeakSample, ...globalPeaks] : globalPeaks`. -/
def stitchedPeaks (mask : List ℚ) (chunkLen : ℕ) (md : EcgMetadata) : List ℤ :=
  let globals := globalize (mdChunkIndex md) chunkLen (localPeaksOf mask)
  match mdLastPeak md with
  | some p => p :: globals
  | none => globals

/-- Rolling-window update (`ecgPipeline.js` line 295):
`[...rrHistory, ...rrIntervals].slice(-15)`. -/
def updateRrHistory (old new : List ℚ) : List ℚ := jsSliceLast 15 (old ++ new)

/-- Result record of `processEcgChunk` (state blob omitted: it is an
engine-owned byte sequence the core only stores and forwards). -/
structure ChunkResult where
  peaks : List ℕ
  bpm : ℤ
  hrv : ℕ
  arrhythmia : ArrhythmiaResult
  lastPeakSample : Option ℤ
  rrHistory : List ℚ
deriving DecidableEq, Repr

/-- Embedding of `processEcgChunk` (`ecgPipeline.js` lines 247-330).
`mask` is the engine's per-sample peak mask for the chunk, `chunkLen` the
chunk's sample count (`chunk.length`), and `zs` the z-score series the
cleaning pipeline returns inside `calculateHeartRate`. -/
def processEcgChunk (mask : List ℚ) (chunkLen : ℕ) (md : EcgMetadata) (zs : List ℚ) :
    ChunkResult :=
  let localPeaks := localPeaksOf mask
  let globals := globalize (mdChunkIndex md) chunkLen localPeaks
  let allPeaks := stitchedPeaks mask chunkLen md
  let r := calculateHeartRate allPeaks zs
  let updated := updateRrHistory (mdRrHistory md) r.rrIntervals
  let rollingHrv := if 2 ≤ updated.length then roundSqrtQ (listVariance updated) else 0
  let arr := detectArrhythmia r.bpm rollingHrv r.rrIntervals
  let newLast :=
    match globals.getLast? with
    | some p => some p
    | none => mdLastPeak md
  ⟨localPeaks, r.bpm, rollingHrv, arr, newLast, updated⟩

/-- One iteration of the worker loop backlog logic for a dequeued job
(`ecgWorker.js` lines 242-261): given the mode before the job and the queue
depth observed after dequeuing, the mode after the job.  Backlog mode is
entered when `queueDepth > 10` and left when `queueDepth <= 5`. -/
def backlogStep (b : Bool) (depth : ℕ) : Bool :=
  let entered := if ¬b ∧ 10 < depth then true else b
  if entered ∧ depth ≤ 5 then false else entered

/-- Effects a single job wants to persist (abstract tokens for the new state
blob, metadata record and result record). -/
structure JobSpec where
  newState : ℕ
  newMeta : ℕ
  result : ℕ
  hasMessageId : Bool
deriving DecidableEq, Repr

/-- Persistent view a job run touches: pipeline-state key, metadata key,
per-sensor result log, pub/sub log, stream acknowledgment flag. -/
structure WStore where
  state : Option ℕ
  meta : Option ℕ
  results : List ℕ
  published : List ℕ
  acked : Bool
deriving DecidableEq, Repr

/-- Store before the job: nothing persisted, message unacknowledged. -/
def emptyWStore : WStore := ⟨none, none, [], [], false⟩

/-- Sequential persistence steps of `processJob` (`ecgWorker.js` lines
86-152) run until the first failing step: `savePipelineState`,
`saveMetadata`, `saveResult`, `publishResult`, then `ackEcgJob` (the last
one only when the job carries a `messageId`).  `k` counts how many steps
complete before the single `try/catch` aborts the rest; `k = 5` is the
failure-free run.  Steps before the failure keep their effects: the catch
block only logs. -/
def runOps (j : JobSpec) (k : ℕ) : WStore :=
  let s0 := emptyWStore
  let s1 := if 1 ≤ k then { s0 with state := some j.newState } else s0
  let s2 := if 2 ≤ k then { s1 with meta := some j.newMeta } else s1
  let s3 := if 3 ≤ k then { s2 with results := s2.results ++ [j.result] } else s2
  let s4 := if 4 ≤ k then { s3 with published := s3.published ++ [j.result] } else s3
  if 5 ≤ k then (if j.hasMessageId then { s4 with acked := true } else s4) else s4

/-- One `processJob` run: `failAt = some i` means step `i` (0-based, in the
order above) throws — in particular `some 0` covers a failure already in
`loadPipelineState`/`processEcgChunk`, before anything is persisted —
and `failAt = none` is the successful run. -/
def processJobModel (j : JobSpec) (failAt : Option (Fin 5)) : WStore :=
  runOps j (match failAt with | none => 5 | some i => (i : ℕ))

/-- Decimal digit to its character (code point 48 + d), for the JavaScript
`String(n)` serialization of a non-negative integer. -/
def digitChar (d : ℕ) : Char := Char.ofNat (48 + d % 10)

/-- Character back to a decimal digit (code points 48-57); `none` for a
non-digit. -/
def digitVal (c : Char) : Option ℕ :=
  if 48 ≤ c.toNat ∧ c.toNat ≤ 57 then some (c.toNat - 48) else none

/-- JavaScript `String(n)` for a non-negative integer: its decimal digits,
most significant first. -/
def natToDecStr (n : ℕ) : String :=
  if n = 0 then "0" else String.mk (((Nat.digits 10 n).reverse).map digitChar)

/-- JavaScript `parseInt` restricted to the strings this transport produces
(no sign, no surrounding whitespace): the value of the longest leading digit
run, `none` standing for `NaN` when there is none. -/
def jsParseInt (s : String) : Option ℤ :=
  let digs := s.data.takeWhile fun c => (digitVal c).isSome
  if digs = [] then none
  else some ((digs.foldl (fun a c => a * 10 + (digitVal c).getD 0) 0 : ℕ) : ℤ)

/-- Wire-level fields of one stream message as written by `queueEcgJob`
(`testPipeline.js` Redis-streams store, lines 213-224): every field is a
string on the wire; the `samples` field is the JSON text of the numeric
array, modelled by its exact numeric content since JSON serialization of a
numeric array round-trips the values. -/
structure QueuedFields where
  id : String
  sensorId : String
  chunkIndex : String
  samples : List ℚ
  timestamp : String
deriving DecidableEq, Repr

/-- Input accepted by `queueEcgJob`. -/
structure EcgJobInput where
  id : Option String
  sensorId : String
  chunkIndex : ℕ
  samples : List ℚ
deriving DecidableEq, Repr

/-- JavaScript `job.id || default`: a missing id (and an empty string,
which `||` also coerces) falls back to the default. -/
def jsOrElseStr (v : Option String) (d : String) : String :=
  match v with
  | some s => if s = "" then d else s
  | none => none.getD d

/-- Embedding of `queueEcgJob` (`testPipeline.js` lines 213-224): append the
serialized job to the stream.  `chunkIndex` is written as
`String(job.chunkIndex)` and the default id is
`` `${sensorId}-${chunkIndex}` ``; `now` is `Date.now()`. -/
def queueEcgJob (job : EcgJobInput) (now : ℕ) (stream : List QueuedFields) :
    List QueuedFields :=
  stream ++ [⟨jsOrElseStr job.id (job.sensorId ++ "-" ++ natToDecStr job.chunkIndex),
              job.sensorId, natToDecStr job.chunkIndex, job.samples, natToDecStr now⟩]

/-- Job as parsed back by `dequeueEcgJob` (`testPipeline.js` lines 231-270):
`chunkIndex` and `timestamp` go through `parseInt` (`none` = `NaN`). -/
structure DequeuedJob where
  id : String
  sensorId : String
  chunkIndex : Option ℤ
  samples : List ℚ
  timestamp : Option ℤ
deriving DecidableEq, Repr

/-- Field parsing shared by `dequeueEcgJob` and the recovery path. -/
def parseJobFields (f : QueuedFields) : DequeuedJob :=
  ⟨f.id, f.sensorId, jsParseInt f.chunkIndex, f.samples, jsParseInt f.timestamp⟩

/-- Embedding of `dequeueEcgJob`: the consumer group delivers the oldest
undelivered message; `none` when the stream has nothing left to deliver. -/
def dequeueEcgJob (stream : List QueuedFields) : Option DequeuedJob :=
  match stream with
  | [] => none
  | f :: _ => some (parseJobFields f)

/-- One entry of the consumer-group pending list as reported by `XPENDING`:
message id, owning consumer, idle time in ms, delivery count. -/
structure PendingEntry where
  messageId : ℕ
  consumer : String
  idleTime : ℕ
  deliveryCount : ℕ
deriving DecidableEq, Repr

/-- Job returned by `recoverPendingJobs` for one reclaimed entry. -/
structure RecoveredJob where
  messageId : ℕ
  job : DequeuedJob
  deliveryCount : ℕ
deriving DecidableEq, Repr

/-- Scan loop of `recoverPendingJobs` (`testPipeline.js` lines 300-336) over
the reported pending entries: entries idle for less than 30000 ms are
skipped (`continue`) and stay with their original consumer; for the others
`XCLAIM` reassigns the entry to `consumerName` (resetting its idle time) and
the message body, when still present in the stream (`lookup`), is parsed and
collected.  Returns the recovered jobs and the updated pending entries. -/
def recoverLoop (consumerName : String) (lookup : ℕ → Option QueuedFields) :
    List PendingEntry → List RecoveredJob × List PendingEntry
  | [] => ([], [])
  | e :: rest =>
    let (rj, rp) := recoverLoop consumerName lookup rest
    if e.idleTime < 30000 then (rj, e :: rp)
    else
      match lookup e.messageId with
      | some f =>
        (⟨e.messageId, parseJobFields f, e.deliveryCount⟩ :: rj,
         { e with consumer := consumerName, idleTime := 0 } :: rp)
      | none => (rj, e :: rp)

/-- Embedding of `recoverPendingJobs` (`testPipeline.js` lines 285-339):
`XPENDING` is called with `COUNT 100`, so only the first 100 pending entries
are scanned in one call; entries beyond that are untouched. -/
def recoverPendingJobs (consumerName : String) (lookup : ℕ → Option QueuedFields)
    (pending : List PendingEntry) : List RecoveredJob × List PendingEntry :=
  let scanned := recoverLoop consumerName lookup (pending.take 100)
  (scanned.1, scanned.2 ++ pending.drop 100)

/-- C4: for the observed queue-depth sequence [11, 9, 8, 5, 4] across
consecutive jobs, backlog mode is entered when depth is 11 (`depth > 10`),
remains active while depth is 9 and 8 (in particular it does not exit at 8),
and is exited at 5 (`depth ≤ 5`), staying off at 4; the trace of the mode
after each job is exactly [true, true, true, false, false]. -/
theorem backlog_hysteresis_trace :
    List.scanl backlogStep false [11, 9, 8, 5, 4] =
      [false, true, true, true, false, false] := by decide

/-- C8: the anomaly classifier is a pure function of rate, rolling
variability and the current batch's raw intervals, its rules evaluated
independently: a low-rate warning fires exactly for rates strictly between 0
and 60, an elevated-rate warning exactly for rates in (100, 150] with
escalation to critical exactly above 150, an irregular warning exactly for
rolling variability above 150, and a premature-event info alert exactly when
some adjacent raw pair has max/min ratio above 1.5 — emitted at most once per
chunk; the three rule families can co-occur, as the concrete instance shows. -/
theorem detectArrhythmia_rules (bpm : ℤ) (hrv : ℕ) (rr : List ℚ) :
    (Alert.mk .bradycardia .warning ∈ (detectArrhythmia bpm hrv rr).alerts ↔
      0 < bpm ∧ bpm < 60)
  ∧ (Alert.mk .tachycardia .warning ∈ (detectArrhythmia bpm hrv rr).alerts ↔
      100 < bpm ∧ bpm ≤ 150)
  ∧ (Alert.mk .tachycardia .critical ∈ (detectArrhythmia bpm hrv rr).alerts ↔
      150 < bpm)
  ∧ (Alert.mk .irregular .warning ∈ (detectArrhythmia bpm hrv rr).alerts ↔
      150 < hrv)
  ∧ (Alert.mk .pvc .info ∈ (detectArrhythmia bpm hrv rr).alerts ↔
      hasPvcPair rr = true)
  ∧ (detectArrhythmia bpm hrv rr).alerts.count (Alert.mk .pvc .info) ≤ 1
  ∧ (detectArrhythmia 160 200 [1000, 400]).alerts =
      [Alert.mk .tachycardia .critical, Alert.mk .irregular .warning,
       Alert.mk .pvc .info] := by
  refine ⟨?_, ?_, ?_, ?_, ?_, ?_,
    by norm_num [detectArrhythmia, hasPvcPair, pvcPairExceeds, jsMin, jsMax]⟩ <;>
    · simp only [detectArrhythmia, List.mem_append, List.count_append]
      split_ifs <;> simp_all <;> omega

/-- C5: whenever fewer than 2 globally-stitched events exist, the computed
rate is exactly 0 — both at the `calculateHeartRate` level (the guard
returns the defined record `{bpm := 0, rrIntervals := [], hrv := 0}` instead
of dividing by an empty average) and for the bpm that `processEcgChunk`
reports for the chunk.  The embedding is a total function into `ℤ`, so the
value is defined (`NaN`/undefined have no representation here; the source
guard returns before the division that could produce them). -/
theorem rate_zero_on_fewer_than_two_events (mask : List ℚ) (chunkLen : ℕ)
    (md : EcgMetadata) (zs : List ℚ) (peaks : List ℤ)
    (h1 : (stitchedPeaks mask chunkLen md).length < 2)
    (h2 : peaks.length < 2) :
    (processEcgChunk mask chunkLen md zs).bpm = 0 ∧
    calculateHeartRate peaks zs = ⟨0, [], 0⟩ := by
  constructor
  · simp [processEcgChunk, calculateHeartRate, h1]
  · simp [calculateHeartRate, h2]

/-- Witness for C5 at a concrete chunk: an all-zero mask yields no events,
and with no carried-over peak the stitched list is empty, so the rate is 0. -/
theorem rate_zero_on_fewer_than_two_events_witness :
    (processEcgChunk [0, 0, 0] 3 ⟨none, none, none⟩ []).bpm = 0 ∧
    calculateHeartRate [] [] = ⟨0, [], 0⟩ :=
  rate_zero_on_fewer_than_two_events [0, 0, 0] 3 ⟨none, none, none⟩ [] []
    (by decide) (by decide)

/-- C6: index globalization is exact — for every sequence index, chunk size
and local event list, the i-th globalized event equals
`sequenceIndex * chunkSize + localIndex` for the i-th local index. -/
theorem globalize_exact (chunkIndex chunkLen : ℕ) (locals : List ℕ) (i : ℕ)
    (h : i < locals.length) :
    (globalize chunkIndex chunkLen locals).getD i 0 =
      ((chunkIndex * chunkLen + locals.getD i 0 : ℕ) : ℤ) := by
  induction locals generalizing i with
  | nil => simp at h
  | cons x xs ih =>
    cases i with
    | zero => simp [globalize]
    | succ n =>
      simp only [globalize, List.map_cons, List.getD_cons_succ]
      exact ih n (by simpa using h)

/-- Witness for C6 at a concrete input: local event 10 of chunk 2 with
chunk size 360 globalizes to 730. -/
theorem globalize_exact_witness :
    (globalize 2 360 [5, 10]).getD 1 0 =
      ((2 * 360 + [5, 10].getD 1 0 : ℕ) : ℤ) :=
  globalize_exact 2 360 [5, 10] 1 (by decide)

/-- C7: after every invocation of `processEcgChunk` the returned rolling
interval window has length at most 15, and it is a suffix of the carried
history followed by the batch's new intervals — the oldest entries are the
ones evicted. -/
theorem rrHistory_bounded (mask : List ℚ) (chunkLen : ℕ) (md : EcgMetadata)
    (zs : List ℚ) :
    (processEcgChunk mask chunkLen md zs).rrHistory.length ≤ 15 ∧
    (processEcgChunk mask chunkLen md zs).rrHistory <:+
      mdRrHistory md ++
        (calculateHeartRate (stitchedPeaks mask chunkLen md) zs).rrIntervals := by
  constructor
  · simp only [processEcgChunk, updateRrHistory, jsSliceLast, List.length_drop]
    omega
  · simp only [processEcgChunk, updateRrHistory, jsSliceLast]
    exact List.drop_suffix _ _

/-- C3 counterexample: prior metadata carrying the non-null
`lastPeakSample = 0` (an event at global sample index 0).  The source reads
it through `metadata.lastPeakSample || null`, which coerces the falsy `0` to
`null`, so the index is NOT prepended to the globalized event list: the
stitched list for a chunk with one local event at index 5 of chunk 1
(chunk size 6) is `[11]` and not `[0, 11]`, and no boundary-spanning
interval exists — the reported rate is 0 instead of one computed from the
interval `11 - 0`. -/
theorem stitch_drops_zero_lastPeak :
    (EcgMetadata.mk (some 1) (some 0) (some [])).lastPeakSample = some 0 ∧
    stitchedPeaks [0, 0, 0, 0, 0, 1] 6 ⟨some 1, some 0, some []⟩ = [11] ∧
    stitchedPeaks [0, 0, 0, 0, 0, 1] 6 ⟨some 1, some 0, some []⟩ ≠
      0 :: globalize (mdChunkIndex ⟨some 1, some 0, some []⟩) 6
        (localPeaksOf [0, 0, 0, 0, 0, 1]) ∧
    (processEcgChunk [0, 0, 0, 0, 0, 1] 6 ⟨some 1, some 0, some []⟩ []).bpm = 0 := by
  refine ⟨rfl, by decide, by decide, ?_⟩
  have h : (stitchedPeaks [0, 0, 0, 0, 0, 1] 6 ⟨some 1, some 0, some []⟩).length < 2 := by
    decide
  simp [processEcgChunk, calculateHeartRate, h]

/-- C3 (amended): for every chunk processed with prior metadata whose
`lastPeakSample` is non-null AND non-zero (the source's `|| null` read
coerces a stored 0 to null), that index is prepended to the chunk's
globalized event list before inter-event intervals are computed, so the
interval spanning the chunk boundary — `(firstGlobalEvent - lastPeak)`
converted to milliseconds — heads the interval list used for rate and
interval computation, and the chunk's reported rate is the rate over that
stitched list. -/
theorem stitch_prepends_nonzero_lastPeak (mask : List ℚ) (chunkLen : ℕ)
    (md : EcgMetadata) (zs : List ℚ) (p g : ℤ) (gs : List ℤ)
    (hp : md.lastPeakSample = some p) (hp0 : p ≠ 0)
    (hg : globalize (mdChunkIndex md) chunkLen (localPeaksOf mask) = g :: gs) :
    stitchedPeaks mask chunkLen md = p :: g :: gs ∧
    (calculateHeartRate (stitchedPeaks mask chunkLen md) zs).rrIntervals =
      (((g - p : ℤ) : ℚ) / 360) * 1000 :: rrIntervalsOf (g :: gs) ∧
    (processEcgChunk mask chunkLen md zs).bpm =
      (calculateHeartRate (stitchedPeaks mask chunkLen md) zs).bpm := by
  have h1 : stitchedPeaks mask chunkLen md = p :: g :: gs := by
    simp [stitchedPeaks, mdLastPeak, hp, hp0, hg]
  refine ⟨h1, ?_, rfl⟩
  rw [h1]
  have hlen : ¬ (p :: g :: gs).length < 2 := by simp
  simp [calculateHeartRate, hlen, rrIntervalsOf]
  have hlen2 : ¬ gs.length + 1 + 1 < 2 := by omega
  simp [hlen2]

/-- Witness for C3 at a concrete chunk: carried peak 2, one local event at
index 5 of chunk 1 with chunk size 6 (global index 11); the stitched list is
`[2, 11]` and the boundary interval `(11 - 2) / 360 * 1000` ms heads the
interval list. -/
theorem stitch_prepends_nonzero_lastPeak_witness :
    stitchedPeaks [0, 0, 0, 0, 0, 1] 6 ⟨some 1, some 2, some []⟩ = [2, 11] ∧
    (calculateHeartRate (stitchedPeaks [0, 0, 0, 0, 0, 1] 6 ⟨some 1, some 2, some []⟩)
        []).rrIntervals =
      ((((11 : ℤ) - 2 : ℤ) : ℚ) / 360) * 1000 :: rrIntervalsOf [11] ∧
    (processEcgChunk [0, 0, 0, 0, 0, 1] 6 ⟨some 1, some 2, some []⟩ []).bpm =
      (calculateHeartRate (stitchedPeaks [0, 0, 0, 0, 0, 1] 6 ⟨some 1, some 2, some []⟩)
        []).bpm :=
  stitch_prepends_nonzero_lastPeak [0, 0, 0, 0, 0, 1] 6 ⟨some 1, some 2, some []⟩ []
    2 11 [] rfl (by decide) (by decide)

/-- Cleaning-loop invariant: the k-th cleaned value is the raw value when it
is not flagged, and the running-mean state accumulated over the first k
values when it is. -/
theorem nnLoop_getD (zs : List ℚ) :
    ∀ (l : List ℚ) (i0 k : ℕ) (rm : ℚ), k < l.length →
      (nnLoop zs l i0 rm).getD k 0 =
        if rrFlagged (l.getD k 0) (zs.getD (i0 + k) 0) (i0 + k) = true
        then rmAfter zs (l.take k) i0 rm
        else l.getD k 0 := by
  intro l
  induction l with
  | nil => intro i0 k rm hk; simp at hk
  | cons x rest ih =>
    intro i0 k rm hk
    cases k with
    | zero =>
      simp only [nnLoop, List.take_zero, rmAfter, Nat.add_zero, List.getD_cons_zero]
      split <;> simp
    | succ n =>
      have hn : n < rest.length := by simpa using hk
      have hidx : i0 + 1 + n = i0 + (n + 1) := by omega
      simp only [nnLoop, List.take_succ_cons, List.getD_cons_succ]
      split
      case isTrue hx =>
        rw [List.getD_cons_succ, ih (i0 + 1) n rm hn, hidx]
        simp only [rmAfter, hx, if_pos]
      case isFalse hx =>
        rw [List.getD_cons_succ, ih (i0 + 1) n _ hn, hidx]
        simp only [rmAfter]
        rw [if_neg hx]

/-- Length of the interval list: one less than the peak count. -/
theorem rrIntervalsOf_length (peaks : List ℤ) :
    (rrIntervalsOf peaks).length = peaks.length - 1 := by
  simp [rrIntervalsOf, List.length_zip]

/-- Concrete stitched batch for the outlier-cleaning scenario: seven
intervals, six 500 ms warm-up values and then 2500 ms (above the 2000 ms
physiological ceiling) at position 6. -/
def c1Peaks : List ℤ := [0, 180, 360, 540, 720, 900, 1080, 1980]

/-- Z-scores the external cleaning pipeline would attach to that batch (all
zero; the 2500 value is flagged by the hard physiological limit no matter
what z-score the engine reports). -/
def c1Zs : List ℚ := [0, 0, 0, 0, 0, 0, 0]

/-- Raw intervals of the concrete batch. -/
theorem c1_rr_eval : rrIntervalsOf c1Peaks = [500, 500, 500, 500, 500, 500, 2500] := by
  norm_num [rrIntervalsOf, c1Peaks]

/-- C1 counterexample: the cleaned interval sequence is NOT the one the
variability/anomaly path uses.  For the concrete batch with 2500 inserted
after the 6-sample warm-up, the cleaning loop does produce
`[500,500,500,500,500,500,500]` (the flagged 2500 replaced by the running
estimate 500), but the rolling window that feeds the variability and
anomaly computation (`updateRrHistory`, appended to by `processEcgChunk`)
holds the RAW intervals with the 2500 intact — the two sequences differ, and
`calculateHeartRate` hands `detectArrhythmia` and the history update only
its raw `rrIntervals`.  The primary rate is 76 bpm, computed from the raw
batch (the cleaned batch would give 120 bpm). -/
theorem cleaned_not_used_for_variability :
    updateRrHistory [] (calculateHeartRate c1Peaks c1Zs).rrIntervals =
      [500, 500, 500, 500, 500, 500, 2500] ∧
    cleanedNnIntervals c1Zs (rrIntervalsOf c1Peaks) =
      [500, 500, 500, 500, 500, 500, 500] ∧
    updateRrHistory [] (calculateHeartRate c1Peaks c1Zs).rrIntervals ≠
      cleanedNnIntervals c1Zs (rrIntervalsOf c1Peaks) ∧
    (calculateHeartRate c1Peaks c1Zs).bpm = 76 ∧
    jsRound (60000 / listMean (cleanedNnIntervals c1Zs (rrIntervalsOf c1Peaks))) = 120 := by
  have hrr : (calculateHeartRate c1Peaks c1Zs).rrIntervals = rrIntervalsOf c1Peaks := rfl
  have hclean : cleanedNnIntervals c1Zs (rrIntervalsOf c1Peaks) =
      [500, 500, 500, 500, 500, 500, 500] := by
    rw [c1_rr_eval]
    norm_num [cleanedNnIntervals, nnLoop, rrFlagged, c1Zs]
  have hwin : updateRrHistory [] (calculateHeartRate c1Peaks c1Zs).rrIntervals =
      [500, 500, 500, 500, 500, 500, 2500] := by
    rw [hrr, c1_rr_eval]
    simp [updateRrHistory, jsSliceLast]
  have hbpm : (calculateHeartRate c1Peaks c1Zs).bpm =
      jsRound (60000 / listMean (rrIntervalsOf c1Peaks)) := rfl
  refine ⟨hwin, hclean, ?_, ?_, ?_⟩
  · rw [hwin, hclean]; norm_num
  · rw [hbpm, c1_rr_eval]
    norm_num [jsRound, listMean, Int.floor_eq_iff]
  · rw [hclean]
    norm_num [jsRound, listMean, Int.floor_eq_iff]

/-- C1 (amended): for every stitched batch of raw inter-event intervals with
a 2500 ms value at a position `i ≥ 6` (after the 6-sample warm-up), the
cleaned interval sequence that `calculateHeartRate` computes replaces that
flagged value with the exponentially-smoothed running estimate (smoothing
factor 0.2, seeded with the first interval, advanced only on non-flagged
values), and the primary rate over the same batch is computed from the raw
intervals with the 2500 unmodified — it does not depend on the z-scores
driving the cleaning at all.  (The cleaned sequence, however, is dropped by
the source: the variability/anomaly path consumes the raw intervals, as the
counterexample shows.) -/
theorem cleaned_replaces_flagged_with_estimate (peaks : List ℤ) (zs zs2 : List ℚ)
    (i : ℕ) (h6 : 6 ≤ i) (hi : i < (rrIntervalsOf peaks).length)
    (h2500 : (rrIntervalsOf peaks).getD i 0 = 2500) :
    (cleanedNnIntervals zs (rrIntervalsOf peaks)).getD i 0 =
      specRunningEstimate zs (rrIntervalsOf peaks) i ∧
    (calculateHeartRate peaks zs).bpm =
      jsRound (60000 / listMean (rrIntervalsOf peaks)) ∧
    (calculateHeartRate peaks zs).bpm = (calculateHeartRate peaks zs2).bpm := by
  have hlen : ¬ peaks.length < 2 := by
    have := rrIntervalsOf_length peaks
    omega
  have hbpm : ∀ z : List ℚ, (calculateHeartRate peaks z).bpm =
      jsRound (60000 / listMean (rrIntervalsOf peaks)) := by
    intro z
    simp [calculateHeartRate, hlen]
  obtain ⟨r0, rest, hr⟩ : ∃ r0 rest, rrIntervalsOf peaks = r0 :: rest := by
    cases h : rrIntervalsOf peaks with
    | nil => rw [h] at hi; simp at hi
    | cons a l => exact ⟨a, l, rfl⟩
  refine ⟨?_, hbpm zs, (hbpm zs).trans (hbpm zs2).symm⟩
  rw [hr] at hi h2500 ⊢
  have hflag : rrFlagged ((r0 :: rest).getD i 0) (zs.getD (0 + i) 0) (0 + i) = true := by
    rw [h2500]
    norm_num [rrFlagged]
  simp only [cleanedNnIntervals, specRunningEstimate]
  rw [nnLoop_getD zs (r0 :: rest) 0 i r0 hi, if_pos hflag]

/-- Witness for C1 at the concrete batch: position 6 (after the warm-up)
holds 2500, the cleaned value there equals the running estimate, and the
rate is unchanged under a different z-score series. -/
theorem cleaned_replaces_flagged_with_estimate_witness :
    (cleanedNnIntervals c1Zs (rrIntervalsOf c1Peaks)).getD 6 0 =
      specRunningEstimate c1Zs (rrIntervalsOf c1Peaks) 6 ∧
    (calculateHeartRate c1Peaks c1Zs).bpm =
      jsRound (60000 / listMean (rrIntervalsOf c1Peaks)) ∧
    (calculateHeartRate c1Peaks c1Zs).bpm =
      (calculateHeartRate c1Peaks [1, 1, 1, 1, 1, 1, 1]).bpm :=
  cleaned_replaces_flagged_with_estimate c1Peaks c1Zs [1, 1, 1, 1, 1, 1, 1] 6
    (by norm_num)
    (by rw [c1_rr_eval]; norm_num)
    (by rw [c1_rr_eval]; norm_num)

/-- C2 counterexample: a job run in which `savePipelineState` succeeds and
`saveMetadata` throws (failure point 1).  The new pipeline state is
persisted, the metadata and result are not, and the job stays
unacknowledged — a partial-success state, so the job's effect on persistent
storage is not all-or-nothing. -/
theorem partial_persistence_exists :
    processJobModel ⟨7, 8, 9, true⟩ (some 1) = ⟨some 7, none, [], [], false⟩ ∧
    ¬ (((processJobModel ⟨7, 8, 9, true⟩ (some 1)).state ≠ none ∧
        (processJobModel ⟨7, 8, 9, true⟩ (some 1)).meta ≠ none ∧
        (processJobModel ⟨7, 8, 9, true⟩ (some 1)).results ≠ [] ∧
        (processJobModel ⟨7, 8, 9, true⟩ (some 1)).acked = true) ∨
       ((processJobModel ⟨7, 8, 9, true⟩ (some 1)).state = none ∧
        (processJobModel ⟨7, 8, 9, true⟩ (some 1)).meta = none ∧
        (processJobModel ⟨7, 8, 9, true⟩ (some 1)).results = [] ∧
        (processJobModel ⟨7, 8, 9, true⟩ (some 1)).acked = false)) := by
  decide

/-- C2 (amended): the job is acknowledged exactly when every persistence
step succeeded (and the job carries a message id); on a successful run
state, metadata and result are all persisted; on any failure the job stays
unacknowledged for retry — but the steps already executed keep their
effects, in pipeline order: metadata is only ever persisted when the state
already is, a result only when the metadata is, and acknowledgment only
when a result is stored.  Partial persistence of an earlier part of the
sequence is the one deviation from all-or-nothing. -/
theorem job_persistence_ladder (j : JobSpec) (f : Option (Fin 5)) :
    ((processJobModel j f).acked = true ↔ f = none ∧ j.hasMessageId = true) ∧
    (f = none → processJobModel j f =
      ⟨some j.newState, some j.newMeta, [j.result], [j.result], j.hasMessageId⟩) ∧
    (∀ k : Fin 5, f = some k → (processJobModel j f).acked = false) ∧
    ((processJobModel j f).meta.isSome = true → (processJobModel j f).state.isSome = true) ∧
    ((processJobModel j f).results ≠ [] → (processJobModel j f).meta.isSome = true) ∧
    ((processJobModel j f).acked = true → (processJobModel j f).results ≠ []) := by
  cases f with
  | none =>
    cases hm : j.hasMessageId <;>
      simp [processJobModel, runOps, hm, emptyWStore]
  | some k =>
    fin_cases k <;> cases hm : j.hasMessageId <;>
      simp [processJobModel, runOps, hm, emptyWStore]

/-- Witness for C2 at a concrete job and failure point: metadata write
fails, the job is unacknowledged, the state write survives. -/
theorem job_persistence_ladder_witness :
    ((processJobModel ⟨7, 8, 9, true⟩ (some 1)).acked = true ↔
      (some 1 : Option (Fin 5)) = none ∧ (JobSpec.mk 7 8 9 true).hasMessageId = true) ∧
    ((some 1 : Option (Fin 5)) = none → processJobModel ⟨7, 8, 9, true⟩ (some 1) =
      ⟨some 7, some 8, [9], [9], true⟩) ∧
    (∀ k : Fin 5, (some 1 : Option (Fin 5)) = some k →
      (processJobModel ⟨7, 8, 9, true⟩ (some 1)).acked = false) ∧
    ((processJobModel ⟨7, 8, 9, true⟩ (some 1)).meta.isSome = true →
      (processJobModel ⟨7, 8, 9, true⟩ (some 1)).state.isSome = true) ∧
    ((processJobModel ⟨7, 8, 9, true⟩ (some 1)).results ≠ [] →
      (processJobModel ⟨7, 8, 9, true⟩ (some 1)).meta.isSome = true) ∧
    ((processJobModel ⟨7, 8, 9, true⟩ (some 1)).acked = true →
      (processJobModel ⟨7, 8, 9, true⟩ (some 1)).results ≠ []) :=
  job_persistence_ladder ⟨7, 8, 9, true⟩ (some 1)

/-- Declarative form of the recovery scan loop: reclaimed jobs are exactly
the scanned entries idle at least 30000 ms whose message body is still in
the stream; entries idle below the threshold (or with a missing body) pass
through untouched, reclaimed ones are reassigned with their idle time
reset. -/
theorem recoverLoop_eq (c : String) (lookup : ℕ → Option QueuedFields) :
    ∀ l : List PendingEntry,
      recoverLoop c lookup l =
        (l.filterMap fun e =>
          if e.idleTime < 30000 then none
          else (lookup e.messageId).map fun f =>
            ⟨e.messageId, parseJobFields f, e.deliveryCount⟩,
         l.map fun e =>
          if e.idleTime < 30000 then e
          else if (lookup e.messageId).isSome
            then { e with consumer := c, idleTime := 0 } else e) := by
  intro l
  induction l with
  | nil => simp [recoverLoop]
  | cons e rest ih =>
    by_cases hidle : e.idleTime < 30000
    · simp [recoverLoop, hidle, ih]
    · cases hlk : lookup e.messageId with
      | none => simp [recoverLoop, hidle, hlk, ih]
      | some f => simp [recoverLoop, hidle, hlk, ih]

/-- Pending set with 100 fresh entries (idle 20000 ms) in front of one stale
entry (idle 35000 ms) at position 101. -/
def c9Pending : List PendingEntry :=
  ((List.range 100).map fun i => ⟨i, "w0", 20000, 1⟩) ++ [⟨100, "w0", 35000, 1⟩]

/-- Stream bodies for the pending messages. -/
def c9Stream : ℕ → Option QueuedFields := fun _ => some ⟨"j", "s", "3", [], "0"⟩

/-- C9 counterexample: `recoverPendingJobs` does not reclaim every pending
entry idle at least 30000 ms.  The pending scan (`XPENDING ... COUNT 100`)
reads only the first 100 entries, so the stale entry (idle 35000 ms) sitting
at position 101 is pending and over the threshold yet nothing is reclaimed
in this call. -/
theorem recover_misses_stale_beyond_scan :
    (⟨100, "w0", 35000, 1⟩ : PendingEntry) ∈ c9Pending ∧
    (recoverPendingJobs "w1" c9Stream c9Pending).1 = [] := by
  constructor
  · decide
  · decide

/-- C9 (amended): among the first 100 pending entries one call scans,
`recoverPendingJobs` reclaims exactly those idle at least 30000 ms (whose
message body is still present), reassigning them to the calling consumer
with idle time reset, and leaves entries idle below the threshold untouched
with their original consumer; entries beyond the scanned 100 are untouched
until a later sweep.  In the two-entry instance, the entry idle 35000 ms is
reclaimed and returned, the one idle 20000 ms is not. -/
theorem recoverPending_reclaims_idle (c : String) (lookup : ℕ → Option QueuedFields)
    (pending : List PendingEntry) :
    (recoverPendingJobs c lookup pending).1 =
      ((pending.take 100).filterMap fun e =>
        if e.idleTime < 30000 then none
        else (lookup e.messageId).map fun f =>
          ⟨e.messageId, parseJobFields f, e.deliveryCount⟩) ∧
    (recoverPendingJobs c lookup pending).2 =
      ((pending.take 100).map fun e =>
        if e.idleTime < 30000 then e
        else if (lookup e.messageId).isSome
          then { e with consumer := c, idleTime := 0 } else e) ++ pending.drop 100 ∧
    (recoverPendingJobs "w1" c9Stream [⟨1, "w0", 35000, 2⟩, ⟨2, "w0", 20000, 1⟩]).1 =
      [⟨1, ⟨"j", "s", some 3, [], some 0⟩, 2⟩] ∧
    (recoverPendingJobs "w1" c9Stream [⟨1, "w0", 35000, 2⟩, ⟨2, "w0", 20000, 1⟩]).2 =
      [⟨1, "w1", 0, 2⟩, ⟨2, "w0", 20000, 1⟩] := by
  refine ⟨?_, ?_, by decide, by decide⟩ <;>
    simp [recoverPendingJobs, recoverLoop_eq]

/-- Digit characters decode to the digit they encode. -/
theorem digitVal_digitChar (d : ℕ) (hd : d < 10) : digitVal (digitChar d) = some d := by
  interval_cases d <;> rfl

/-- Folding the decimal-string evaluation over the reversed digit list
recovers the positional value of the digits. -/
theorem foldl_digits_reverse (L : List ℕ) (hL : ∀ d ∈ L, d < 10) (a : ℕ) :
    ((L.reverse.map digitChar).foldl (fun x c => x * 10 + (digitVal c).getD 0) a) =
      a * 10 ^ L.length + Nat.ofDigits 10 L := by
  induction L generalizing a with
  | nil => simp [Nat.ofDigits]
  | cons d rest ih =>
    have hd : d < 10 := hL d (by simp)
    have hrest : ∀ x ∈ rest, x < 10 := fun x hx => hL x (by simp [hx])
    simp only [List.reverse_cons, List.map_append, List.foldl_append, List.map_cons,
      List.map_nil, List.foldl_cons, List.foldl_nil, ih hrest,
      digitVal_digitChar d hd, Option.getD_some, Nat.ofDigits_cons, List.length_cons]
    ring

/-- A list of digit characters survives the digit-run scan whole. -/
theorem takeWhile_digits (cs : List Char) (h : ∀ c ∈ cs, (digitVal c).isSome = true) :
    cs.takeWhile (fun c => (digitVal c).isSome) = cs := by
  induction cs with
  | nil => rfl
  | cons c rest ih =>
    have hc := h c (by simp)
    simp only [List.takeWhile_cons, hc, if_true]
    exact congrArg (c :: ·) (ih fun x hx => h x (by simp [hx]))

/-- Decimal serialization of a non-negative integer round-trips through
`parseInt`. -/
theorem jsParseInt_natToDecStr (n : ℕ) : jsParseInt (natToDecStr n) = some (n : ℤ) := by
  by_cases hn : n = 0
  · subst hn; rfl
  · have hdig : ∀ d ∈ Nat.digits 10 n, d < 10 := fun d hd =>
      Nat.digits_lt_base (by norm_num) hd
    have hchars : ∀ c ∈ ((Nat.digits 10 n).reverse.map digitChar), (digitVal c).isSome = true := by
      intro c hc
      obtain ⟨d, hd, rfl⟩ := List.mem_map.mp hc
      rw [digitVal_digitChar d (hdig d (List.mem_reverse.mp hd))]
      rfl
    have hne : Nat.digits 10 n ≠ [] := Nat.digits_ne_nil_iff_ne_zero.mpr hn
    have hdata : (natToDecStr n).data = ((Nat.digits 10 n).reverse.map digitChar) := by
      simp [natToDecStr, hn]
    simp only [jsParseInt, hdata, takeWhile_digits _ hchars]
    rw [if_neg (by simpa using hne)]
    rw [foldl_digits_reverse _ hdig 0, Nat.zero_mul, Nat.zero_add, Nat.ofDigits_digits]

/-- C10: enqueue/dequeue is a faithful round-trip over the text-based
transport.  For every job (string sensor id, non-negative integer chunk
index serialized as a decimal string, numeric sample array), dequeuing right
after enqueuing yields a job whose sensor id, chunk index (parsed back from
the decimal string) and sample values equal those of the enqueued job; the
enqueue-time timestamp round-trips the same way. -/
theorem queue_roundtrip (job : EcgJobInput) (now : ℕ) :
    dequeueEcgJob (queueEcgJob job now []) =
      some ⟨jsOrElseStr job.id (job.sensorId ++ "-" ++ natToDecStr job.chunkIndex),
        job.sensorId, some (job.chunkIndex : ℤ), job.samples, some (now : ℤ)⟩ := by
  simp [dequeueEcgJob, queueEcgJob, parseJobFields, jsParseInt_natToDecStr]
